import Mathlib

/-!
Verification development for the template catalog / bundle generation /
payload rendering subsystem of the ztp-mcp repository.

The Go sources embedded here are:
* internal/server/templates/template.go   (CreateTemplate, DeleteTemplate, executeTemplateFile)
* internal/server/templates/executor.go   (TemplateExecutor.Execute, RetrieveExecutor)
* the catalog file (Templates, Template, TemplateIDs, Description)

The filesystem is modelled as an association list from paths (component
lists relative to the process working directory) to entries (file with
string content, or directory).  Library calls (html/template,
encoding/json, base64) are modelled explicitly below, each marked with a
doc comment when the modelled code lives outside the repository sources.
-/

namespace ZtpMcp

abbrev Path := List String

inductive Entry where
  | file (content : String)
  | dir
deriving DecidableEq, Repr

structure FS where
  entries : List (Path × Entry)
deriving DecidableEq, Repr

def findEntry (p : Path) : List (Path × Entry) → Option Entry
  | [] => none
  | qe :: rest => if qe.1 = p then some qe.2 else findEntry p rest

def FS.find (fs : FS) (p : Path) : Option Entry :=
  findEntry p fs.entries

/-- Boolean test that path p is a leading segment of path q (q lies at or
below p in the tree). -/
def startsWith : Path → Path → Bool
  | _, [] => true
  | [], _ :: _ => false
  | a :: as, b :: bs => a = b && startsWith as bs

/-- Model of os.RemoveAll: drop every entry at or below p.  On the pure
state this removal always succeeds. -/
def FS.removeAll (fs : FS) (p : Path) : FS :=
  ⟨fs.entries.filter (fun qe => !(startsWith qe.1 p))⟩

/-- Model of os.Create followed by writing content: the entry at p becomes
a file holding the given bytes, shadowed duplicates are dropped. -/
def FS.setFile (fs : FS) (p : Path) (content : String) : FS :=
  ⟨(p, Entry.file content) :: fs.entries.filter (fun qe => decide (qe.1 ≠ p))⟩

def isFileAt (fs : FS) (p : Path) : Bool :=
  match fs.find p with
  | some (Entry.file _) => true
  | _ => false

/-- Model of os.MkdirAll: succeeds at once when p already is a directory,
fails when p or one of its ancestors exists as a plain file, otherwise
creates the missing directories along the chain. -/
def FS.mkdirAll (fs : FS) (p : Path) : Except String FS :=
  if fs.find p = some Entry.dir then .ok fs
  else if p.inits.any (fun q => isFileAt fs q) then .error "mkdir failed: not a directory"
  else .ok ⟨(p.inits.filterMap (fun q =>
      if q ≠ [] ∧ fs.find q = none then some (q, Entry.dir) else none)) ++ fs.entries⟩

/-- Immediate children of p, as (name, isDir) pairs, in entry order.
Models the list returned by os.ReadDir. -/
def FS.children (fs : FS) (p : Path) : List (String × Bool) :=
  fs.entries.filterMap (fun qe =>
    if qe.1.length = p.length + 1 ∧ startsWith qe.1 p = true then
      some (qe.1.getLastD "", match qe.2 with | Entry.dir => true | _ => false)
    else none)

/-- Model of os.ReadDir: fails (none) unless p exists and is a directory. -/
def FS.readDir (fs : FS) (p : Path) : Option (List (String × Bool)) :=
  match fs.find p with
  | some Entry.dir => some (fs.children p)
  | _ => none

/-- A well-formed filesystem state: the parent of every recorded entry is
either the root or a directory, as on a real filesystem. -/
def FS.wfb (fs : FS) : Bool :=
  fs.entries.all (fun qe =>
    qe.1.dropLast = [] ||
      (match fs.find qe.1.dropLast with | some Entry.dir => true | _ => false))

/-- Boolean statement that no entry exists at or below p. -/
def unitAbsent (fs : FS) (p : Path) : Bool :=
  fs.entries.all (fun qe => !(startsWith qe.1 p))

/-! ## Template engine model

Modelled from the Go standard library html/template as the sources use it:
a template is literal text interleaved with field placeholders, a
placeholder whose name is missing from the data map renders as the empty
value, and every interpolated value passes through the HTML escaper. -/

inductive Tpl where
  | nil
  | lit (c : Char) (rest : Tpl)
  | hole (name : String) (rest : Tpl)
deriving DecidableEq, Repr

def isIdentChar (c : Char) : Bool := c.isAlphanum || c = '_'

/-- Modelled from the Go standard library: template parsing for the
placeholder fragment of the language the sources rely on; malformed
directives are parse errors, as in html/template. -/
def parseGo : Nat → List Char → Except String Tpl
  | 0, _ => .error "template parse failure"
  | _ + 1, [] => .ok Tpl.nil
  | fuel + 1, c1 :: rest1 =>
    if c1 = '\x7b' ∧ rest1.head? = some '\x7b' then
      match rest1 with
      | [] => .error "template parse failure"
      | _ :: rest2 =>
        match rest2 with
        | [] => .error "template parse failure"
        | d :: rest3 =>
          if d = '.' then
            let nm := rest3.takeWhile isIdentChar
            match rest3.dropWhile isIdentChar with
            | r1 :: r2 :: rest4 =>
              if r1 = '\x7d' ∧ r2 = '\x7d' ∧ nm ≠ [] then
                match parseGo fuel rest4 with
                | .ok t => .ok (Tpl.hole (String.mk nm) t)
                | .error e => .error e
              else .error "template parse failure"
            | _ => .error "template parse failure"
          else .error "template parse failure"
    else
      match parseGo fuel rest1 with
      | .ok t => .ok (Tpl.lit c1 t)
      | .error e => .error e

def parseTpl (s : String) : Except String Tpl :=
  parseGo (s.data.length + 1) s.data

def escapeChar (c : Char) : String :=
  if c = '<' then "&lt;"
  else if c = '>' then "&gt;"
  else if c = '&' then "&amp;"
  else if c = Char.ofNat 34 then "&#34;"
  else if c = Char.ofNat 39 then "&#39;"
  else String.singleton c

/-- Modelled from the Go standard library: the html/template escaper for a
value interpolated in plain-text context. -/
def htmlEscape (s : String) : String :=
  String.join (s.data.map escapeChar)

def lookupParam (n : String) : List (String × String) → Option String
  | [] => none
  | p :: rest => if p.1 = n then some p.2 else lookupParam n rest

/-- Modelled from the Go standard library: executing a parsed template
against a flat data map.  A missing name contributes the empty value (the
html/template behaviour for an absent map key); a present value is
HTML-escaped. -/
def renderTpl : Tpl → List (String × String) → String
  | Tpl.nil, _ => ""
  | Tpl.lit c rest, params => String.singleton c ++ renderTpl rest params
  | Tpl.hole n rest, params =>
      (match lookupParam n params with
       | some v => htmlEscape v
       | none => "") ++ renderTpl rest params

def holeFree : Tpl → Bool
  | Tpl.nil => true
  | Tpl.lit _ rest => holeFree rest
  | Tpl.hole _ _ => false

/-! ## Base64 model

Modelled from the Go standard library encoding/base64 StdEncoding, used by
TemplateExecutor.Execute to encode the rendered payload. -/

def b64Alphabet : List Char :=
  "ABCDEFGHIJKLMNOPQRSTUVWXYZabcdefghijklmnopqrstuvwxyz0123456789+/".data

def b64Char (n : Nat) : Char := b64Alphabet.getD n 'A'

def b64Val (c : Char) : Option Nat :=
  let i := b64Alphabet.indexOf c
  if i < 64 then some i else none

def b64EncodeChars : List Nat → List Char
  | [] => []
  | [a] => [b64Char (a / 4), b64Char (a % 4 * 16), '=', '=']
  | [a, b] => [b64Char (a / 4), b64Char (a % 4 * 16 + b / 16), b64Char (b % 16 * 4), '=']
  | a :: b :: c :: rest =>
      b64Char (a / 4) :: b64Char (a % 4 * 16 + b / 16) ::
      b64Char (b % 16 * 4 + c / 64) :: b64Char (c % 64) :: b64EncodeChars rest

def b64DecodeChars : List Char → Option (List Nat)
  | [] => some []
  | c1 :: c2 :: c3 :: c4 :: rest =>
    if c3 = '=' ∧ c4 = '=' ∧ rest = [] then
      match b64Val c1, b64Val c2 with
      | some v1, some v2 => some [v1 * 4 + v2 / 16]
      | _, _ => none
    else if c4 = '=' ∧ rest = [] then
      match b64Val c1, b64Val c2, b64Val c3 with
      | some v1, some v2, some v3 => some [v1 * 4 + v2 / 16, v2 % 16 * 16 + v3 / 4]
      | _, _, _ => none
    else
      match b64Val c1, b64Val c2, b64Val c3, b64Val c4, b64DecodeChars rest with
      | some v1, some v2, some v3, some v4, some bs =>
          some ((v1 * 4 + v2 / 16) :: (v2 % 16 * 16 + v3 / 4) :: (v3 % 4 * 64 + v4) :: bs)
      | _, _, _, _, _ => none
  | _ => none

def base64Encode (bs : List Nat) : String := String.mk (b64EncodeChars bs)

def base64Decode (s : String) : Option (List Nat) := b64DecodeChars s.data

/-- UTF-8 encoding of one character, as byte values. -/
def charBytes (c : Char) : List Nat :=
  let n := c.toNat
  if n < 128 then [n]
  else if n < 2048 then [192 + n / 64, 128 + n % 64]
  else if n < 65536 then [224 + n / 4096, 128 + n / 64 % 64, 128 + n % 64]
  else [240 + n / 262144, 128 + n / 4096 % 64, 128 + n / 64 % 64, 128 + n % 64]

def bytesOfChars : List Char → List Nat
  | [] => []
  | c :: cs => charBytes c ++ bytesOfChars cs

/-- The byte sequence a Go string holds (UTF-8 code units). -/
def strBytes (s : String) : List Nat := bytesOfChars s.data

/-! ## Data model (template.go) -/

structure Parameter where
  name : String
  description : String
deriving DecidableEq, Repr

structure File where
  path : String
  content : String
deriving DecidableEq, Repr

structure GenericTemplate where
  id : String
  name : String
  parameters : List Parameter
  description : String
  updatePackages : Bool
  upgradePackages : Bool
  packages : List String
  commands : List String
  files : List File
deriving DecidableEq, Repr

def Capitalize (value : String) : String :=
  match value.data with
  | [] => ""
  | c :: rest => String.mk (c.toUpper :: rest.map Char.toLower)

/-! ## Fixed path constants used by the sources (relative to the process
working directory, which os.Getwd resolves in every operation) -/

def tplRoot : Path := ["internal", "server", "templates"]

def metaTemplateDir : Path := ["internal", "server", "templates", "template"]

def catalogRoot : Path := ["templates"]

def unitPath (templateId : String) : Path := tplRoot ++ [templateId]

def payloadPath (templateId : String) : Path := tplRoot ++ [templateId, "template.yaml"]

/-- Model of strings.TrimSuffix. -/
def trimSuffix (s suf : String) : String :=
  if suf.data.isSuffixOf s.data then String.mk (s.data.take (s.data.length - suf.data.length))
  else s

/-! ## Bundle generator (template.go) -/

/-- Outcome of rendering one meta-template file against a descriptor.
parseErr: template.ParseFiles failed, before the output file is created.
execErr: the output file was created and tmpl.Execute failed after writing
some partial bytes to it.  ok: the full rendered output. -/
inductive RenderOutcome where
  | parseErr (msg : String)
  | execErr (written : String) (msg : String)
  | ok (out : String)
deriving DecidableEq, Repr

/-- Embedding of executeTemplateFile (template.go lines 114-151): read the
meta-template source, render it against the descriptor, and write the
output member named by stripping the .templ suffix.  The rendering step is
a parameter because the meta-template language semantics live in
html/template, outside the repository. -/
def executeTemplateFile (render : String → GenericTemplate → RenderOutcome)
    (templateDir outputDir : Path) (fname : String) (templ : GenericTemplate)
    (fs : FS) : FS × Except String Unit :=
  match fs.find (templateDir ++ [fname]) with
  | some (Entry.file content) =>
    match render content templ with
    | RenderOutcome.parseErr m => (fs, .error m)
    | RenderOutcome.execErr written m =>
        (fs.setFile (outputDir ++ [trimSuffix fname ".templ"]) written, .error m)
    | RenderOutcome.ok out =>
        (fs.setFile (outputDir ++ [trimSuffix fname ".templ"]) out, .ok ())
  | _ => (fs, .error "failed to read template file")

/-- The loop body of CreateTemplate over the meta-template directory
listing: sub-directories are skipped, the first failure aborts the loop. -/
def processFiles (render : String → GenericTemplate → RenderOutcome)
    (templateDir outputDir : Path) (templ : GenericTemplate) :
    List (String × Bool) → FS → FS × Except String Unit
  | [], fs => (fs, .ok ())
  | e :: rest, fs =>
    if e.2 then processFiles render templateDir outputDir templ rest fs
    else
      match executeTemplateFile render templateDir outputDir e.1 templ fs with
      | (fs2, .error msg) => (fs2, .error msg)
      | (fs2, .ok ()) => processFiles render templateDir outputDir templ rest fs2

/-- Embedding of CreateTemplate (template.go lines 42-89): make the output
directory, enumerate the meta-template set, render each file; on any error
after the directory was made, the deferred cleanup removes the whole
output directory before the error is returned. -/
def CreateTemplate (render : String → GenericTemplate → RenderOutcome)
    (fs : FS) (genericTemplate : GenericTemplate) : FS × Except String Unit :=
  match fs.mkdirAll (unitPath genericTemplate.id) with
  | .error e => (fs, .error e)
  | .ok fs1 =>
    match fs1.readDir metaTemplateDir with
    | none => (fs1.removeAll (unitPath genericTemplate.id),
               .error "failed to read template directory")
    | some templateFiles =>
      match processFiles render metaTemplateDir (unitPath genericTemplate.id)
          genericTemplate templateFiles fs1 with
      | (fs2, .error e) => (fs2.removeAll (unitPath genericTemplate.id), .error e)
      | (fs2, .ok ()) => (fs2, .ok ())

/-- Embedding of DeleteTemplate (template.go lines 91-112): probe the unit
with os.ReadDir and return its error when the unit is absent; then call
os.RemoveAll, whose own error is only logged — nil is returned either way.
removeFault injects an I/O failure of the removal step (os.RemoveAll
returning an error), in which case the state is left untouched. -/
def DeleteTemplate (removeFault : Bool) (fs : FS) (templateId : String) :
    FS × Except String Unit :=
  match fs.readDir (unitPath templateId) with
  | none => (fs, .error ("failed to retrieve template directory " ++ templateId))
  | some _ =>
    if removeFault then (fs, .ok ())
    else (fs.removeAll (unitPath templateId), .ok ())

/-! ## Deployment executor (executor.go) -/

structure TemplateExecutor where
  templateId : String
  parameters : List (String × String)
deriving DecidableEq, Repr

/-- Embedding of TemplateExecutor.Execute (executor.go lines 20-49): stat
the payload member, parse it, execute it against the parameter map, and
return the base64 encoding of the full rendered bytes. -/
def TemplateExecutor.Execute (fs : FS) (t : TemplateExecutor) : Except String String :=
  match fs.find (payloadPath t.templateId) with
  | none => .error ("template file not found: " ++ t.templateId)
  | some Entry.dir => .error "template parse failure"
  | some (Entry.file content) =>
    match parseTpl content with
    | .error e => .error e
    | .ok tpl => .ok (base64Encode (strBytes (renderTpl tpl t.parameters)))

/-- Embedding of RetrieveExecutor (executor.go lines 51-84): existence
checks on the unit, the metadata member and the payload member, then the
parameter JSON body is decoded (the decoder is a parameter, it lives in
encoding/json). -/
def RetrieveExecutor (parseParams : String → Option (List (String × String)))
    (fs : FS) (templateId : String) (parameters : String) :
    Except String TemplateExecutor :=
  if fs.find (unitPath templateId) = none then
    .error ("template id " ++ templateId ++ " does not exist")
  else if fs.find (unitPath templateId ++ ["description.json"]) = none then
    .error ("template description not found for id " ++ templateId)
  else if fs.find (unitPath templateId ++ ["template.yaml"]) = none then
    .error ("template file not found for id " ++ templateId)
  else
    match parseParams parameters with
    | none => .error "failed to parse body"
    | some ps => .ok { templateId := templateId, parameters := ps }

/-! ## Catalog (Templates, Template, TemplateIDs) -/

structure Description where
  id : String
  name : String
  description : String
  parameters : List (String × String)
deriving DecidableEq, Repr

namespace Catalog

/-- The enumeration loop shared by Templates and TemplateIDs: for each
child directory of the catalog root, read and parse its
description.json, skipping the candidate on a missing member, an
unreadable member, or a parse failure. -/
def scan (parseDesc : String → Option Description) (fs : FS) :
    List (String × Bool) → List Description
  | [] => []
  | e :: rest =>
    if e.2 = false then scan parseDesc fs rest
    else
      match fs.find (catalogRoot ++ [e.1, "description.json"]) with
      | some (Entry.file content) =>
        match parseDesc content with
        | some d => d :: scan parseDesc fs rest
        | none => scan parseDesc fs rest
      | _ => scan parseDesc fs rest

/-- The TemplateIDs loop, which collects the ID field of each parsed
metadata document. -/
def scanIds (parseDesc : String → Option Description) (fs : FS) :
    List (String × Bool) → List String
  | [] => []
  | e :: rest =>
    if e.2 = false then scanIds parseDesc fs rest
    else
      match fs.find (catalogRoot ++ [e.1, "description.json"]) with
      | some (Entry.file content) =>
        match parseDesc content with
        | some d => d.id :: scanIds parseDesc fs rest
        | none => scanIds parseDesc fs rest
      | _ => scanIds parseDesc fs rest

/-- Embedding of Templates: list the catalog root and scan it; only a
failure to read the root itself is an error. -/
def Templates (parseDesc : String → Option Description) (fs : FS) :
    Except String (List Description) :=
  match fs.readDir catalogRoot with
  | none => .error "error reading directory"
  | some entries => .ok (scan parseDesc fs entries)

/-- Embedding of TemplateIDs. -/
def TemplateIDs (parseDesc : String → Option Description) (fs : FS) :
    Except String (List String) :=
  match fs.readDir catalogRoot with
  | none => .error "error reading directory"
  | some entries => .ok (scanIds parseDesc fs entries)

/-- Embedding of Template (the catalog get): stat and read the metadata
member of the single requested unit under the catalog root. -/
def Template (parseDesc : String → Option Description) (fs : FS)
    (templateId : String) : Except String Description :=
  match fs.find (catalogRoot ++ [templateId, "description.json"]) with
  | some (Entry.file content) =>
    match parseDesc content with
    | some d => .ok d
    | none => .error "error parsing JSON"
  | some Entry.dir => .error "error reading description"
  | none => .error "file does not exist"

end Catalog

/-! ## Concrete library instantiations used for witnesses -/

/-- Modelled from the spec: a stand-in for encoding/json.Unmarshal into
Description (the decoder lives outside the repository sources).  It
parses the canonical three-field shape id;name;description. -/
def parseDescription (s : String) : Option Description :=
  match s.splitOn ";" with
  | [i, n, d] => some { id := i, name := n, description := d, parameters := [] }
  | _ => none

/-- Modelled from the spec: the meta-template rendering context.  The
descriptor is the dot value of the meta-templates, whose sources live
outside src/; the spec says the metadata document carries the descriptor
id, name and description, so those scalar fields are exposed by name. -/
def descriptorCtx (d : GenericTemplate) : List (String × String) :=
  [("Id", d.id), ("Name", d.name), ("Description", d.description)]

/-- Modelled from the spec: the html/template ParseFiles plus Execute pair
applied to one meta-template source, as executeTemplateFile invokes it. -/
def htmlRender (content : String) (d : GenericTemplate) : RenderOutcome :=
  match parseTpl content with
  | .error m => RenderOutcome.parseErr m
  | .ok tpl => RenderOutcome.ok (renderTpl tpl (descriptorCtx d))

/-- Existence of a readable file member at a path. -/
def FileAt (fs : FS) (q : Path) : Prop :=
  ∃ c, fs.find q = some (Entry.file c)

/-! ## Concrete states used to instantiate the theorems -/

/-- The canonical metadata meta-template source, in the shape
parseDescription reads back. -/
def metaDescTempl : String :=
  "\x7b\x7b.Id\x7d\x7d;\x7b\x7b.Name\x7d\x7d;\x7b\x7b.Description\x7d\x7d"

/-- The canonical payload meta-template source. -/
def metaPayloadTempl : String := "name: \x7b\x7b.Name\x7d\x7d"

/-- A payload meta-template with a malformed placeholder, so rendering it
fails at parse time. -/
def metaBrokenTempl : String := "oops \x7b\x7bbroken"

def demoDescriptor : GenericTemplate :=
  { id := "demo", name := "Demo", parameters := [], description := "demo template",
    updatePackages := false, upgradePackages := false,
    packages := [], commands := [], files := [] }

/-- A descriptor whose name carries an HTML-special character. -/
def escDescriptor : GenericTemplate :=
  { demoDescriptor with name := "D<emo" }

/-- A state whose meta-template set has a healthy metadata template and a
broken payload template: generation writes the first member and then
fails on the second. -/
def fsRollback : FS := ⟨[
  (["internal"], Entry.dir),
  (["internal", "server"], Entry.dir),
  (["internal", "server", "templates"], Entry.dir),
  (["internal", "server", "templates", "template"], Entry.dir),
  (["internal", "server", "templates", "template", "description.json.templ"],
    Entry.file metaDescTempl),
  (["internal", "server", "templates", "template", "template.yaml.templ"],
    Entry.file metaBrokenTempl)]⟩

/-- A state with a healthy meta-template set and an empty catalog root, as
after a fresh deployment. -/
def fsPair : FS := ⟨[
  (["internal"], Entry.dir),
  (["internal", "server"], Entry.dir),
  (["internal", "server", "templates"], Entry.dir),
  (["internal", "server", "templates", "template"], Entry.dir),
  (["internal", "server", "templates", "template", "description.json.templ"],
    Entry.file metaDescTempl),
  (["internal", "server", "templates", "template", "template.yaml.templ"],
    Entry.file metaPayloadTempl),
  (["templates"], Entry.dir)]⟩

/-- A state holding one complete generated bundle named demo. -/
def fsBundle : FS := ⟨[
  (["internal"], Entry.dir),
  (["internal", "server"], Entry.dir),
  (["internal", "server", "templates"], Entry.dir),
  (["internal", "server", "templates", "demo"], Entry.dir),
  (["internal", "server", "templates", "demo", "description.json"],
    Entry.file "demo;Demo;demo template"),
  (["internal", "server", "templates", "demo", "template.yaml"],
    Entry.file "token: \x7b\x7b.Token\x7d\x7d"),
  (["internal", "server", "templates", "template"], Entry.dir),
  (["internal", "server", "templates", "template", "description.json.templ"],
    Entry.file metaDescTempl),
  (["internal", "server", "templates", "template", "template.yaml.templ"],
    Entry.file metaPayloadTempl)]⟩

/-- A state holding one payload with no placeholders. -/
def fsStatic : FS := ⟨[
  (["internal"], Entry.dir),
  (["internal", "server"], Entry.dir),
  (["internal", "server", "templates"], Entry.dir),
  (["internal", "server", "templates", "static"], Entry.dir),
  (["internal", "server", "templates", "static", "description.json"],
    Entry.file "static;Static;fixed"),
  (["internal", "server", "templates", "static", "template.yaml"],
    Entry.file "ok")]⟩

/-- A state holding one bundle whose payload is a single placeholder. -/
def fsHole : FS := ⟨[
  (["internal"], Entry.dir),
  (["internal", "server"], Entry.dir),
  (["internal", "server", "templates"], Entry.dir),
  (["internal", "server", "templates", "hole"], Entry.dir),
  (["internal", "server", "templates", "hole", "description.json"],
    Entry.file "hole;Hole;one hole"),
  (["internal", "server", "templates", "hole", "template.yaml"],
    Entry.file "\x7b\x7b.Token\x7d\x7d")]⟩

/-- A state with an existing demo bundle and a meta-template set whose
payload template is broken, so a re-create of demo fails mid-way. -/
def fsReCreate : FS := ⟨[
  (["internal"], Entry.dir),
  (["internal", "server"], Entry.dir),
  (["internal", "server", "templates"], Entry.dir),
  (["internal", "server", "templates", "demo"], Entry.dir),
  (["internal", "server", "templates", "demo", "description.json"],
    Entry.file "demo;Demo;demo template"),
  (["internal", "server", "templates", "demo", "template.yaml"],
    Entry.file "old payload"),
  (["internal", "server", "templates", "template"], Entry.dir),
  (["internal", "server", "templates", "template", "description.json.templ"],
    Entry.file metaDescTempl),
  (["internal", "server", "templates", "template", "template.yaml.templ"],
    Entry.file metaBrokenTempl)]⟩

/-- A catalog root with one well-formed bundle, one whose metadata does not
parse, one stray directory with no metadata member, and one stray plain
file. -/
def fsCatalog : FS := ⟨[
  (["templates"], Entry.dir),
  (["templates", "good"], Entry.dir),
  (["templates", "good", "description.json"], Entry.file "good;Good;a bundle"),
  (["templates", "bad"], Entry.dir),
  (["templates", "bad", "description.json"], Entry.file "not a description"),
  (["templates", "stray"], Entry.dir),
  (["templates", "notes.txt"], Entry.file "not a bundle")]⟩

/-! ## Filesystem lemmas -/

theorem findEntry_some_mem {p : Path} {e : Entry} {l : List (Path × Entry)}
    (h : findEntry p l = some e) : (p, e) ∈ l := by
  induction l with
  | nil => simp [findEntry] at h
  | cons qe rest ih =>
    rw [findEntry] at h
    by_cases hq : qe.1 = p
    · rw [if_pos hq] at h
      injection h with h2
      subst hq; subst h2
      exact List.mem_cons_self _ _
    · rw [if_neg hq] at h
      exact List.mem_cons_of_mem _ (ih h)

theorem startsWith_refl (p : Path) : startsWith p p = true := by
  induction p with
  | nil => rfl
  | cons a as ih => simp [startsWith, ih]

theorem removeAll_unitAbsent (fs : FS) (p : Path) :
    unitAbsent (fs.removeAll p) p = true := by
  unfold unitAbsent FS.removeAll
  rw [List.all_eq_true]
  intro qe hqe
  exact (List.mem_filter.mp hqe).2

theorem findEntry_filter_none {q p : Path} (h : startsWith q p = true)
    (l : List (Path × Entry)) :
    findEntry q (l.filter (fun qe => !(startsWith qe.1 p))) = none := by
  induction l with
  | nil => rfl
  | cons qe rest ih =>
    rw [List.filter_cons]
    by_cases hq : qe.1 = q
    · have hf : (!startsWith qe.1 p) = false := by rw [hq, h]; rfl
      rw [if_neg (by simp [hf])]
      exact ih
    · by_cases hf : (!startsWith qe.1 p) = true
      · rw [if_pos hf, findEntry, if_neg hq]
        exact ih
      · rw [if_neg hf]
        exact ih

theorem removeAll_find_none (fs : FS) {p q : Path} (h : startsWith q p = true) :
    (fs.removeAll p).find q = none := by
  unfold FS.removeAll FS.find
  exact findEntry_filter_none h fs.entries

theorem findEntry_filter_ne {q p : Path} (h : q ≠ p) (l : List (Path × Entry)) :
    findEntry q (l.filter (fun qe => decide (qe.1 ≠ p))) = findEntry q l := by
  induction l with
  | nil => rfl
  | cons qe rest ih =>
    rw [List.filter_cons]
    by_cases hq : qe.1 = p
    · rw [if_neg (by simp [hq])]
      rw [ih]
      have hne : ¬ (qe.1 = q) := by rw [hq]; intro hh; exact h hh.symm
      conv_rhs => rw [findEntry, if_neg hne]
    · rw [if_pos (by simp [hq])]
      rw [findEntry]
      conv_rhs => rw [findEntry]
      by_cases hqq : qe.1 = q
      · rw [if_pos hqq, if_pos hqq]
      · rw [if_neg hqq, if_neg hqq]
        exact ih

theorem setFile_find_same (fs : FS) (p : Path) (c : String) :
    (fs.setFile p c).find p = some (Entry.file c) := by
  unfold FS.setFile FS.find
  rw [findEntry, if_pos rfl]

theorem setFile_find_ne (fs : FS) {p q : Path} (c : String) (h : q ≠ p) :
    (fs.setFile p c).find q = fs.find q := by
  unfold FS.setFile FS.find
  rw [findEntry, if_neg (by intro hh; exact h hh.symm)]
  exact findEntry_filter_ne h fs.entries

theorem FileAt_setFile (fs : FS) (p : Path) (c : String) (q : Path)
    (h : FileAt fs q) : FileAt (fs.setFile p c) q := by
  by_cases hq : q = p
  · subst hq
    exact ⟨c, setFile_find_same fs q c⟩
  · obtain ⟨c0, hc⟩ := h
    exact ⟨c0, by rw [setFile_find_ne fs c hq]; exact hc⟩

/-! ## Generator loop lemmas -/

theorem executeTemplateFile_ok {render : String → GenericTemplate → RenderOutcome}
    {td od : Path} {f : String} {t : GenericTemplate} {fs fs2 : FS}
    (h : executeTemplateFile render td od f t fs = (fs2, .ok ())) :
    ∃ content out, fs.find (td ++ [f]) = some (Entry.file content) ∧
      render content t = RenderOutcome.ok out ∧
      fs2 = fs.setFile (od ++ [trimSuffix f ".templ"]) out := by
  cases hfind : fs.find (td ++ [f]) with
  | none => simp [executeTemplateFile, hfind] at h
  | some e =>
    cases e with
    | dir => simp [executeTemplateFile, hfind] at h
    | file content =>
      cases hr : render content t with
      | parseErr m => simp [executeTemplateFile, hfind, hr] at h
      | execErr w m => simp [executeTemplateFile, hfind, hr] at h
      | ok out =>
        simp [executeTemplateFile, hfind, hr] at h
        exact ⟨content, out, rfl, hr, h.symm⟩

theorem processFiles_ok_preserves {render : String → GenericTemplate → RenderOutcome}
    {td od : Path} {t : GenericTemplate} :
    ∀ (es : List (String × Bool)) (fs fs2 : FS),
      processFiles render td od t es fs = (fs2, .ok ()) →
      ∀ q, FileAt fs q → FileAt fs2 q := by
  intro es
  induction es with
  | nil =>
    intro fs fs2 h q hq
    simp [processFiles] at h
    rw [← h]
    exact hq
  | cons e rest ih =>
    intro fs fs2 h q hq
    simp only [processFiles] at h
    by_cases he : e.2 = true
    · rw [if_pos he] at h
      exact ih fs fs2 h q hq
    · rw [if_neg he] at h
      cases hex : executeTemplateFile render td od e.1 t fs with
      | mk fsx r =>
        rw [hex] at h
        cases r with
        | error msg => simp at h
        | ok u =>
          cases u
          obtain ⟨content, out, hfind, hr, hfs⟩ := executeTemplateFile_ok hex
          have h2 : processFiles render td od t rest fsx = (fs2, Except.ok ()) := h
          subst hfs
          exact ih _ fs2 h2 q (FileAt_setFile _ _ _ _ hq)

theorem processFiles_ok_written {render : String → GenericTemplate → RenderOutcome}
    {td od : Path} {t : GenericTemplate} :
    ∀ (es : List (String × Bool)) (fs fs2 : FS),
      processFiles render td od t es fs = (fs2, .ok ()) →
      ∀ f, (f, false) ∈ es → FileAt fs2 (od ++ [trimSuffix f ".templ"]) := by
  intro es
  induction es with
  | nil =>
    intro fs fs2 h f hf
    simp at hf
  | cons e rest ih =>
    intro fs fs2 h f hf
    simp only [processFiles] at h
    by_cases he : e.2 = true
    · rw [if_pos he] at h
      rcases List.mem_cons.mp hf with heq | hmem
      · rw [← heq] at he
        simp at he
      · exact ih fs fs2 h f hmem
    · rw [if_neg he] at h
      cases hex : executeTemplateFile render td od e.1 t fs with
      | mk fsx r =>
        rw [hex] at h
        cases r with
        | error msg => simp at h
        | ok u =>
          cases u
          have h2 : processFiles render td od t rest fsx = (fs2, Except.ok ()) := h
          obtain ⟨content, out, hfind, hr, hfs⟩ := executeTemplateFile_ok hex
          rcases List.mem_cons.mp hf with heq | hmem
          · have hstep : FileAt fsx (od ++ [trimSuffix e.1 ".templ"]) := by
              subst hfs
              exact ⟨out, setFile_find_same _ _ _⟩
            have h3 := processFiles_ok_preserves rest fsx fs2 h2 _ hstep
            have hf1 : f = e.1 := by
              cases heq
              rfl
            rw [hf1]
            exact h3
          · exact ih fsx fs2 h2 f hmem

/-! ## Catalog lemmas -/

theorem scan_sound {pd : String → Option Description} {fs : FS} :
    ∀ {es : List (String × Bool)} {d : Description}, d ∈ Catalog.scan pd fs es →
      ∃ nm content, (nm, true) ∈ es ∧
        fs.find (catalogRoot ++ [nm, "description.json"]) = some (Entry.file content) ∧
        pd content = some d := by
  intro es
  induction es with
  | nil =>
    intro d h
    simp [Catalog.scan] at h
  | cons e rest ih =>
    intro d h
    by_cases he : e.2 = false
    · rw [Catalog.scan, if_pos he] at h
      obtain ⟨nm, content, h1, h2, h3⟩ := ih h
      exact ⟨nm, content, List.mem_cons_of_mem _ h1, h2, h3⟩
    · cases hfind : fs.find (catalogRoot ++ [e.1, "description.json"]) with
      | none =>
        simp [Catalog.scan, he, hfind] at h
        obtain ⟨nm, content, h1, h2, h3⟩ := ih h
        exact ⟨nm, content, List.mem_cons_of_mem _ h1, h2, h3⟩
      | some en =>
        cases en with
        | dir =>
          simp [Catalog.scan, he, hfind] at h
          obtain ⟨nm, content, h1, h2, h3⟩ := ih h
          exact ⟨nm, content, List.mem_cons_of_mem _ h1, h2, h3⟩
        | file content =>
          cases hp : pd content with
          | none =>
            simp [Catalog.scan, he, hfind, hp] at h
            obtain ⟨nm, c2, h1, h2, h3⟩ := ih h
            exact ⟨nm, c2, List.mem_cons_of_mem _ h1, h2, h3⟩
          | some d0 =>
            simp [Catalog.scan, he, hfind, hp] at h
            rcases h with hd | hmem
            · subst hd
              have hee : e = (e.1, true) := by
                cases e with
                | mk a b =>
                  simp only [Bool.not_eq_false] at he
                  rw [he]
              refine ⟨e.1, content, ?_, hfind, hp⟩
              rw [← hee]
              exact List.mem_cons_self _ _
            · obtain ⟨nm, c2, h1, h2, h3⟩ := ih hmem
              exact ⟨nm, c2, List.mem_cons_of_mem _ h1, h2, h3⟩

theorem scan_complete {pd : String → Option Description} {fs : FS} :
    ∀ {es : List (String × Bool)} {nm : String} {content : String} {d : Description},
      (nm, true) ∈ es →
      fs.find (catalogRoot ++ [nm, "description.json"]) = some (Entry.file content) →
      pd content = some d →
      d ∈ Catalog.scan pd fs es := by
  intro es
  induction es with
  | nil =>
    intro nm content d h
    simp at h
  | cons e rest ih =>
    intro nm content d hmem hfind hp
    rcases List.mem_cons.mp hmem with heq | hrest
    · cases heq
      simp [Catalog.scan, hfind, hp]
    · have hd := ih hrest hfind hp
      by_cases he : e.2 = false
      · simp [Catalog.scan, he]
        exact hd
      · cases hfind2 : fs.find (catalogRoot ++ [e.1, "description.json"]) with
        | none =>
          simp [Catalog.scan, he, hfind2]
          exact hd
        | some en =>
          cases en with
          | dir =>
            simp [Catalog.scan, he, hfind2]
            exact hd
          | file c2 =>
            cases hp2 : pd c2 with
            | none =>
              simp [Catalog.scan, he, hfind2, hp2]
              exact hd
            | some d2 =>
              simp [Catalog.scan, he, hfind2, hp2]
              exact Or.inr hd

theorem scanIds_eq {pd : String → Option Description} {fs : FS} :
    ∀ es : List (String × Bool),
      Catalog.scanIds pd fs es = (Catalog.scan pd fs es).map (fun d => d.id) := by
  intro es
  induction es with
  | nil => rfl
  | cons e rest ih =>
    by_cases he : e.2 = false
    · simp [Catalog.scan, Catalog.scanIds, he]
      exact ih
    · cases hfind : fs.find (catalogRoot ++ [e.1, "description.json"]) with
      | none =>
        simp [Catalog.scan, Catalog.scanIds, he, hfind]
        exact ih
      | some en =>
        cases en with
        | dir =>
          simp [Catalog.scan, Catalog.scanIds, he, hfind]
          exact ih
        | file c2 =>
          cases hp : pd c2 with
          | none =>
            simp [Catalog.scan, Catalog.scanIds, he, hfind, hp]
            exact ih
          | some d2 =>
            simp [Catalog.scan, Catalog.scanIds, he, hfind, hp, ih]

/-! ## Well-formedness lemmas -/

theorem wfb_no_dangling {fs : FS} (hwf : fs.wfb = true) {q : Path}
    (hq : fs.find q.dropLast = none) (hne : q.dropLast ≠ []) : fs.find q = none := by
  cases hfind : fs.find q with
  | none => rfl
  | some e =>
    exfalso
    have hmem := findEntry_some_mem hfind
    unfold FS.wfb at hwf
    rw [List.all_eq_true] at hwf
    have h2 := hwf _ hmem
    dsimp only at h2
    rw [Bool.or_eq_true] at h2
    rcases h2 with h2 | h2
    · exact hne (of_decide_eq_true h2)
    · rw [hq] at h2
      simp at h2

theorem wfb_member_absent {fs : FS} (hwf : fs.wfb = true) (i m : String)
    (hq : fs.find (unitPath i) = none) :
    fs.find (unitPath i ++ [m]) = none := by
  have hdl : (unitPath i ++ [m]).dropLast = unitPath i := rfl
  apply wfb_no_dangling hwf
  · rw [hdl]
    exact hq
  · rw [hdl]
    simp [unitPath, tplRoot]

/-! ## Render lemmas -/

theorem renderTpl_holeFree {t : Tpl} (h : holeFree t = true)
    (p q : List (String × String)) : renderTpl t p = renderTpl t q := by
  induction t with
  | nil => rfl
  | lit c rest ih =>
    rw [holeFree] at h
    rw [renderTpl, renderTpl, ih h]
  | hole n rest ih =>
    rw [holeFree] at h
    exact absurd h (by decide)

/-! ## Base64 lemmas -/

theorem b64Val_b64Char : ∀ n, n < 64 → b64Val (b64Char n) = some n := by decide

theorem b64Char_ne_pad : ∀ n, n < 64 → b64Char n ≠ '=' := by decide

theorem b64_roundtrip : ∀ l : List Nat, (∀ b ∈ l, b < 256) →
    b64DecodeChars (b64EncodeChars l) = some l
  | [], _ => rfl
  | [a], h => by
    have ha : a < 256 := h a (by simp)
    rw [b64EncodeChars, b64DecodeChars]
    rw [if_pos ⟨rfl, rfl, rfl⟩]
    rw [b64Val_b64Char _ (by omega), b64Val_b64Char _ (by omega)]
    simp only [Option.some.injEq, List.cons.injEq, and_true]
    omega
  | [a, b], h => by
    have ha : a < 256 := h a (by simp)
    have hb : b < 256 := h b (by simp)
    rw [b64EncodeChars, b64DecodeChars]
    rw [if_neg (fun hc => b64Char_ne_pad (b % 16 * 4) (by omega) hc.1)]
    rw [if_pos (by decide)]
    rw [b64Val_b64Char _ (by omega), b64Val_b64Char _ (by omega),
        b64Val_b64Char _ (by omega)]
    simp only [Option.some.injEq, List.cons.injEq, and_true]
    constructor
    · omega
    · omega
  | a :: b :: c :: rest, h => by
    have ha : a < 256 := h a (by simp)
    have hb : b < 256 := h b (by simp)
    have hc : c < 256 := h c (by simp)
    have ih := b64_roundtrip rest (fun x hx => h x (by simp [hx]))
    rw [b64EncodeChars, b64DecodeChars]
    rw [if_neg (fun hx => b64Char_ne_pad (b % 16 * 4 + c / 64) (by omega) hx.1)]
    rw [if_neg (fun hx => b64Char_ne_pad (c % 64) (by omega) hx.1)]
    rw [b64Val_b64Char _ (by omega), b64Val_b64Char _ (by omega),
        b64Val_b64Char _ (by omega), b64Val_b64Char _ (by omega), ih]
    simp only [Option.some.injEq, List.cons.injEq]
    refine ⟨by omega, by omega, by omega, trivial⟩

theorem charBytes_lt (c : Char) : ∀ b ∈ charBytes c, b < 256 := by
  have hv : c.toNat < 1114112 := by
    rcases c.valid with h | ⟨h2, h3⟩
    · exact lt_trans h (by norm_num)
    · exact h3
  intro b hb
  by_cases h1 : c.toNat < 128
  · simp [charBytes, h1] at hb
    omega
  · by_cases h2 : c.toNat < 2048
    · simp [charBytes, h1, h2] at hb
      rcases hb with hb | hb <;> omega
    · by_cases h3 : c.toNat < 65536
      · simp [charBytes, h1, h2, h3] at hb
        rcases hb with hb | hb | hb <;> omega
      · simp [charBytes, h1, h2, h3] at hb
        rcases hb with hb | hb | hb | hb <;> omega

theorem bytesOfChars_lt : ∀ cs : List Char, ∀ b ∈ bytesOfChars cs, b < 256 := by
  intro cs
  induction cs with
  | nil =>
    intro b hb
    simp [bytesOfChars] at hb
  | cons c rest ih =>
    intro b hb
    rw [bytesOfChars] at hb
    rcases List.mem_append.mp hb with hb | hb
    · exact charBytes_lt c b hb
    · exact ih b hb

theorem strBytes_lt (s : String) : ∀ b ∈ strBytes s, b < 256 :=
  bytesOfChars_lt s.data

theorem base64_roundtrip_bytes (s : String) :
    base64Decode (base64Encode (strBytes s)) = some (strBytes s) := by
  unfold base64Encode base64Decode
  exact b64_roundtrip (strBytes s) (strBytes_lt s)

/-! ## Generator shape lemmas -/

theorem create_error_shape {render : String → GenericTemplate → RenderOutcome}
    {fs fs1 fs2 : FS} {d : GenericTemplate} {e : String}
    (hmk : fs.mkdirAll (unitPath d.id) = .ok fs1)
    (hrun : CreateTemplate render fs d = (fs2, .error e)) :
    ∃ fsx : FS, fs2 = FS.removeAll fsx (unitPath d.id) := by
  simp [CreateTemplate, hmk] at hrun
  cases hrd : fs1.readDir metaTemplateDir with
  | none =>
    rw [hrd] at hrun
    simp at hrun
    exact ⟨fs1, hrun.1.symm⟩
  | some es =>
    rw [hrd] at hrun
    simp at hrun
    cases hp : processFiles render metaTemplateDir (unitPath d.id) d es fs1 with
    | mk fsx r =>
      rw [hp] at hrun
      cases r with
      | error msg =>
        simp at hrun
        exact ⟨fsx, hrun.1.symm⟩
      | ok u =>
        cases u
        simp at hrun

theorem create_ok_shape {render : String → GenericTemplate → RenderOutcome}
    {fs fs1 fs2 : FS} {d : GenericTemplate} {es : List (String × Bool)}
    (hmk : fs.mkdirAll (unitPath d.id) = .ok fs1)
    (hrd : fs1.readDir metaTemplateDir = some es)
    (hrun : CreateTemplate render fs d = (fs2, .ok ())) :
    processFiles render metaTemplateDir (unitPath d.id) d es fs1 = (fs2, .ok ()) := by
  simp [CreateTemplate, hmk, hrd] at hrun
  cases hp : processFiles render metaTemplateDir (unitPath d.id) d es fs1 with
  | mk fsx r =>
    rw [hp] at hrun
    cases r with
    | error msg => simp at hrun
    | ok u =>
      cases u
      simp at hrun
      rw [hrun]

theorem payloadPath_eq (i : String) :
    unitPath i ++ ["template.yaml"] = payloadPath i := rfl

/-! ## Claim theorems -/

/-- Claim C1: CreateTemplate is all-or-nothing per invocation.  When the
call fails anywhere past the creation of the output directory (the
meta-template enumeration, or the parse, execute or write step of any
meta-template file), the returned state holds no entry at or below the
unit named D.id, including members written earlier in the same call; when
it succeeds and the meta-template set listed the two canonical source
files, the returned state holds both bundle members as readable files. -/
theorem c1_create_all_or_nothing
    (render : String → GenericTemplate → RenderOutcome)
    (fs fs2 : FS) (d : GenericTemplate) (res : Except String Unit)
    (hrun : CreateTemplate render fs d = (fs2, res))
    (hmk : ∃ fs1, fs.mkdirAll (unitPath d.id) = .ok fs1) :
    (∀ e, res = .error e → unitAbsent fs2 (unitPath d.id) = true) ∧
    (res = .ok () → ∀ fs1 es, fs.mkdirAll (unitPath d.id) = .ok fs1 →
      fs1.readDir metaTemplateDir = some es →
      ("description.json.templ", false) ∈ es →
      ("template.yaml.templ", false) ∈ es →
      FileAt fs2 (unitPath d.id ++ ["description.json"]) ∧
      FileAt fs2 (unitPath d.id ++ ["template.yaml"])) := by
  obtain ⟨fs1, hmk⟩ := hmk
  constructor
  · intro e hres
    subst hres
    obtain ⟨fsx, hshape⟩ := create_error_shape hmk hrun
    rw [hshape]
    exact removeAll_unitAbsent _ _
  · intro hres fs1x es hmk2 hrd hm1 hm2
    subst hres
    rw [hmk] at hmk2
    injection hmk2 with hq
    subst hq
    have hp := create_ok_shape hmk hrd hrun
    constructor
    · have hw := processFiles_ok_written es fs1 fs2 hp "description.json.templ" hm1
      have ht : trimSuffix "description.json.templ" ".templ" = "description.json" := by
        decide
      rw [ht] at hw
      exact hw
    · have hw := processFiles_ok_written es fs1 fs2 hp "template.yaml.templ" hm2
      have ht : trimSuffix "template.yaml.templ" ".templ" = "template.yaml" := by decide
      rw [ht] at hw
      exact hw

/-- Witness for C1: on a state whose metadata meta-template is healthy and
whose payload meta-template is malformed, generation writes the first
member, fails on the second, and the returned state has no trace of the
demo unit. -/
theorem c1_create_all_or_nothing_witness :
    unitAbsent (CreateTemplate htmlRender fsRollback demoDescriptor).1
      (unitPath "demo") = true := by
  have h := c1_create_all_or_nothing htmlRender fsRollback
      (CreateTemplate htmlRender fsRollback demoDescriptor).1 demoDescriptor
      (CreateTemplate htmlRender fsRollback demoDescriptor).2 rfl ⟨_, rfl⟩
  exact h.1 "template parse failure" (by rfl)

/-- Claim C9: CreateTemplate does not fail when a unit named D.id already
exists as a directory (MkdirAll succeeds and changes nothing), and a
subsequent failure rolls the whole directory back, erasing every member
of the previously existing bundle. -/
theorem c9_recreate_failure_destroys_existing
    (render : String → GenericTemplate → RenderOutcome)
    (fs fs2 : FS) (d : GenericTemplate) (e : String) (m : Path)
    (hdir : fs.find (unitPath d.id) = some Entry.dir)
    (hm : startsWith m (unitPath d.id) = true)
    (hrun : CreateTemplate render fs d = (fs2, .error e)) :
    fs.mkdirAll (unitPath d.id) = .ok fs ∧
    fs2.find m = none ∧
    unitAbsent fs2 (unitPath d.id) = true := by
  have hmk : fs.mkdirAll (unitPath d.id) = .ok fs := by
    unfold FS.mkdirAll
    rw [if_pos hdir]
  obtain ⟨fsx, hshape⟩ := create_error_shape hmk hrun
  subst hshape
  exact ⟨hmk, removeAll_find_none _ hm, removeAll_unitAbsent _ _⟩

/-- Witness for C9: re-creating the existing demo bundle against a broken
meta-template set leaves no demo unit at all; the old payload member is
gone as well, and the directory creation step had succeeded. -/
theorem c9_recreate_failure_destroys_existing_witness :
    (CreateTemplate htmlRender fsReCreate demoDescriptor).1.find
      (unitPath "demo" ++ ["template.yaml"]) = none ∧
    fsReCreate.mkdirAll (unitPath "demo") = .ok fsReCreate := by
  have h := c9_recreate_failure_destroys_existing htmlRender fsReCreate
      (CreateTemplate htmlRender fsReCreate demoDescriptor).1 demoDescriptor
      "template parse failure" (unitPath "demo" ++ ["template.yaml"])
      (by rfl) (by decide) (by rfl)
  exact ⟨h.2.1, h.1⟩

/-- Claim C2 is refuted by the code: CreateTemplate materialises the
bundle under internal/server/templates/D.id, while the catalog lookup
Template reads templates/D.id/description.json — a different root.  On a
state with a healthy meta-template set and an empty catalog root, a
successful create is followed by a catalog lookup that fails with the
not-found error, even though the generated metadata member exists. -/
theorem c2_catalog_roots_mismatch :
    (CreateTemplate htmlRender fsPair demoDescriptor).2 = .ok () ∧
    FileAt (CreateTemplate htmlRender fsPair demoDescriptor).1
      (unitPath "demo" ++ ["description.json"]) ∧
    Catalog.Template parseDescription
      (CreateTemplate htmlRender fsPair demoDescriptor).1 "demo" =
      .error "file does not exist" := by
  exact ⟨rfl, ⟨"demo;Demo;demo template", rfl⟩, rfl⟩

/-- Claim C3: whatever the metadata decoder and state, once the catalog
root itself is readable, listing succeeds; every returned summary comes
from a child directory whose metadata member exists as a readable file
and parses, every such well-formed candidate is returned, and the id
listing is the projection of the same scan. -/
theorem c3_listing_skips_invalid
    (pd : String → Option Description) (fs : FS) (es : List (String × Bool))
    (hrd : fs.readDir catalogRoot = some es) :
    ∃ ds ids,
      Catalog.Templates pd fs = .ok ds ∧
      Catalog.TemplateIDs pd fs = .ok ids ∧
      ids = ds.map (fun d => d.id) ∧
      (∀ d ∈ ds, ∃ nm content, (nm, true) ∈ es ∧
        fs.find (catalogRoot ++ [nm, "description.json"]) = some (Entry.file content) ∧
        pd content = some d) ∧
      (∀ nm content d, (nm, true) ∈ es →
        fs.find (catalogRoot ++ [nm, "description.json"]) = some (Entry.file content) →
        pd content = some d → d ∈ ds) := by
  refine ⟨Catalog.scan pd fs es, Catalog.scanIds pd fs es, ?_, ?_, scanIds_eq es, ?_, ?_⟩
  · simp [Catalog.Templates, hrd]
  · simp [Catalog.TemplateIDs, hrd]
  · intro d hd
    exact scan_sound hd
  · intro nm content d h1 h2 h3
    exact scan_complete h1 h2 h3

/-- Witness for C3: a catalog root holding one well-formed bundle, one
with unparseable metadata, one stray directory without metadata and one
plain file satisfies the listing contract. -/
theorem c3_listing_skips_invalid_witness :
    ∃ ds ids,
      Catalog.Templates parseDescription fsCatalog = .ok ds ∧
      Catalog.TemplateIDs parseDescription fsCatalog = .ok ids ∧
      ids = ds.map (fun d => d.id) ∧
      (∀ d ∈ ds, ∃ nm content,
        (nm, true) ∈ [("good", true), ("bad", true), ("stray", true), ("notes.txt", false)] ∧
        fsCatalog.find (catalogRoot ++ [nm, "description.json"]) = some (Entry.file content) ∧
        parseDescription content = some d) ∧
      (∀ nm content d,
        (nm, true) ∈ [("good", true), ("bad", true), ("stray", true), ("notes.txt", false)] →
        fsCatalog.find (catalogRoot ++ [nm, "description.json"]) = some (Entry.file content) →
        parseDescription content = some d → d ∈ ds) :=
  c3_listing_skips_invalid parseDescription fsCatalog
    [("good", true), ("bad", true), ("stray", true), ("notes.txt", false)] (by rfl)

/-- Claim C4: once the payload member is present and parses, rendering
never fails on a parameter map, whatever names it omits; a placeholder
whose name is absent from the map contributes the empty value. -/
theorem c4_missing_parameter_defaults
    (fs : FS) (t : TemplateExecutor) (content : String) (tpl : Tpl)
    (hf : fs.find (payloadPath t.templateId) = some (Entry.file content))
    (hp : parseTpl content = .ok tpl) :
    (∃ s, TemplateExecutor.Execute fs t = .ok s) ∧
    (∀ n, lookupParam n t.parameters = none →
      renderTpl (Tpl.hole n Tpl.nil) t.parameters = "") := by
  constructor
  · refine ⟨base64Encode (strBytes (renderTpl tpl t.parameters)), ?_⟩
    simp [TemplateExecutor.Execute, hf, hp]
  · intro n hn
    simp [renderTpl, hn]

/-- Witness for C4: rendering a payload that is one placeholder against
the empty parameter map succeeds, and the missing name renders empty. -/
theorem c4_missing_parameter_defaults_witness :
    (∃ s, TemplateExecutor.Execute fsHole ⟨"hole", []⟩ = .ok s) ∧
    (∀ n, lookupParam n ([] : List (String × String)) = none →
      renderTpl (Tpl.hole n Tpl.nil) [] = "") :=
  c4_missing_parameter_defaults fsHole ⟨"hole", []⟩ "\x7b\x7b.Token\x7d\x7d"
    (Tpl.hole "Token" Tpl.nil) (by rfl) (by rfl)

/-- Claim C5: a successful render returns exactly one standard base64
string encoding the complete rendered byte output, and decoding that
string recovers the full output, so nothing is omitted or partial. -/
theorem c5_base64_whole_output
    (fs : FS) (t : TemplateExecutor) (s : String)
    (h : TemplateExecutor.Execute fs t = .ok s) :
    ∃ content tpl,
      fs.find (payloadPath t.templateId) = some (Entry.file content) ∧
      parseTpl content = .ok tpl ∧
      s = base64Encode (strBytes (renderTpl tpl t.parameters)) ∧
      base64Decode s = some (strBytes (renderTpl tpl t.parameters)) := by
  cases hfind : fs.find (payloadPath t.templateId) with
  | none => simp [TemplateExecutor.Execute, hfind] at h
  | some en =>
    cases en with
    | dir => simp [TemplateExecutor.Execute, hfind] at h
    | file content =>
      cases hp : parseTpl content with
      | error e => simp [TemplateExecutor.Execute, hfind, hp] at h
      | ok tpl =>
        simp [TemplateExecutor.Execute, hfind, hp] at h
        refine ⟨content, tpl, rfl, hp, h.symm, ?_⟩
        rw [← h]
        exact base64_roundtrip_bytes _

/-- Witness for C5: the static bundle renders to the base64 encoding of
its payload bytes, which decodes back to those bytes. -/
theorem c5_base64_whole_output_witness :
    ∃ content tpl,
      fsStatic.find (payloadPath "static") = some (Entry.file content) ∧
      parseTpl content = .ok tpl ∧
      base64Encode (strBytes "ok") = base64Encode (strBytes (renderTpl tpl [])) ∧
      base64Decode (base64Encode (strBytes "ok")) = some (strBytes (renderTpl tpl [])) :=
  c5_base64_whole_output fsStatic ⟨"static", []⟩ (base64Encode (strBytes "ok")) (by rfl)

/-- Claim C6: rendering fails with an error whenever the storage unit or
the payload member is absent (on a well-formed state), a successful
render guarantees the payload member existed and parsed, and
RetrieveExecutor likewise rejects a missing payload member. -/
theorem c6_render_notfound
    (fs : FS) (t : TemplateExecutor)
    (pp : String → Option (List (String × String))) (pstr : String)
    (hwf : fs.wfb = true) :
    (fs.find (unitPath t.templateId) = none →
      ∃ e, TemplateExecutor.Execute fs t = .error e) ∧
    (fs.find (payloadPath t.templateId) = none →
      ∃ e, TemplateExecutor.Execute fs t = .error e) ∧
    (∀ s, TemplateExecutor.Execute fs t = .ok s →
      ∃ content tpl,
        fs.find (payloadPath t.templateId) = some (Entry.file content) ∧
        parseTpl content = .ok tpl ∧
        s = base64Encode (strBytes (renderTpl tpl t.parameters))) ∧
    (fs.find (payloadPath t.templateId) = none →
      ∃ e, RetrieveExecutor pp fs t.templateId pstr = .error e) := by
  have hmember : fs.find (unitPath t.templateId) = none →
      fs.find (payloadPath t.templateId) = none := by
    intro h
    exact wfb_member_absent hwf t.templateId "template.yaml" h
  have hexec : fs.find (payloadPath t.templateId) = none →
      ∃ e, TemplateExecutor.Execute fs t = .error e := by
    intro h
    exact ⟨"template file not found: " ++ t.templateId,
      by simp [TemplateExecutor.Execute, h]⟩
  refine ⟨fun h => hexec (hmember h), hexec, ?_, ?_⟩
  · intro s h
    cases hfind : fs.find (payloadPath t.templateId) with
    | none => simp [TemplateExecutor.Execute, hfind] at h
    | some en =>
      cases en with
      | dir => simp [TemplateExecutor.Execute, hfind] at h
      | file content =>
        cases hp : parseTpl content with
        | error e => simp [TemplateExecutor.Execute, hfind, hp] at h
        | ok tpl =>
          simp [TemplateExecutor.Execute, hfind, hp] at h
          exact ⟨content, tpl, rfl, hp, h.symm⟩
  · intro hpay
    unfold RetrieveExecutor
    by_cases h1 : fs.find (unitPath t.templateId) = none
    · rw [if_pos h1]
      exact ⟨_, rfl⟩
    · rw [if_neg h1]
      by_cases h2 : fs.find (unitPath t.templateId ++ ["description.json"]) = none
      · rw [if_pos h2]
        exact ⟨_, rfl⟩
      · rw [if_neg h2, payloadPath_eq, if_pos hpay]
        exact ⟨_, rfl⟩

/-- Witness for C6: on a well-formed state with no ghost unit, both the
executor and RetrieveExecutor report errors for the ghost id. -/
theorem c6_render_notfound_witness :
    (∃ e, TemplateExecutor.Execute fsStatic ⟨"ghost", []⟩ = .error e) ∧
    (∃ e, RetrieveExecutor (fun _ => some []) fsStatic "ghost" "" = .error e) := by
  have h := c6_render_notfound fsStatic ⟨"ghost", []⟩ (fun _ => some []) "" (by rfl)
  exact ⟨h.1 (by rfl), h.2.2.2 (by rfl)⟩

/-- Claim C7 is refuted by the code: the existence probe does fail cleanly
for an absent unit, but a failure of the removal step itself is only
logged — DeleteTemplate then returns success with the unit still present,
so success does not imply removal. -/
theorem c7_delete_error_swallowed :
    ((DeleteTemplate false fsStatic "ghost").2 =
      .error "failed to retrieve template directory ghost") ∧
    ((DeleteTemplate true fsStatic "static").2 = .ok () ∧
      (DeleteTemplate true fsStatic "static").1.find (unitPath "static") =
        some Entry.dir) ∧
    ((DeleteTemplate false fsStatic "static").2 = .ok () ∧
      (DeleteTemplate false fsStatic "static").1.find (unitPath "static") = none) := by
  exact ⟨rfl, ⟨rfl, rfl⟩, ⟨rfl, rfl⟩⟩

/-- Claim C8: rendering a placeholder-free payload is deterministic and
independent of the supplied parameter map, so repeated calls against the
same stored payload bytes return the identical base64 string. -/
theorem c8_render_deterministic
    (fs : FS) (i content : String) (tpl : Tpl) (p q : List (String × String))
    (hf : fs.find (payloadPath i) = some (Entry.file content))
    (hp : parseTpl content = .ok tpl)
    (hnh : holeFree tpl = true) :
    TemplateExecutor.Execute fs ⟨i, p⟩ = TemplateExecutor.Execute fs ⟨i, q⟩ := by
  simp [TemplateExecutor.Execute, hf, hp]
  rw [renderTpl_holeFree hnh p q]

/-- Witness for C8: the static payload renders identically under two
different parameter maps. -/
theorem c8_render_deterministic_witness :
    TemplateExecutor.Execute fsStatic ⟨"static", [("A", "1")]⟩ =
      TemplateExecutor.Execute fsStatic ⟨"static", []⟩ :=
  c8_render_deterministic fsStatic "static" "ok" (Tpl.lit 'o' (Tpl.lit 'k' Tpl.nil))
    [("A", "1")] [] (by rfl) (by rfl) (by rfl)

/-- Claim C10: both the payload renderer and the meta-template generator
run the HTML-escaping engine, so a value holding an HTML-special
character reaches the output escaped rather than verbatim: the demo
payload renders the parameter a<b as a&lt;b inside the encoded result,
and generating with a descriptor named D<emo writes D&lt;emo into the
output member. -/
theorem c10_html_escaping :
    TemplateExecutor.Execute fsBundle ⟨"demo", [("Token", "a<b")]⟩ =
      .ok (base64Encode (strBytes "token: a&lt;b")) ∧
    (executeTemplateFile htmlRender metaTemplateDir (unitPath "esc")
        "template.yaml.templ" escDescriptor fsPair).1.find
      (unitPath "esc" ++ ["template.yaml"]) = some (Entry.file "name: D&lt;emo") ∧
    htmlEscape "a<b" = "a&lt;b" ∧
    "a&lt;b" ≠ "a<b" := by
  exact ⟨rfl, rfl, rfl, by decide⟩

end ZtpMcp
